import Mathlib

/-!
Verification of the BAS-document validation and auto-correction engine of
HDGRACE-BAS-Final-XML against its specification.

The development shallowly embeds the two components under study:

* the syntax corrector `fix_common_errors` of `src/modules/mod_xml.py`
  (lines 54 to 85): attribute quoting by the regex
  `(\w+)=([^"\s>]+)(?=\s|>)`, CDATA shielding with `__CDATA_i__`
  placeholder tokens, entity escaping of the five reserved characters,
  and CDATA restoration, in that order;
* the validator `XMLValidator` of `src/modules/validator.py`:
  `validate_xml_file` and its check stages `_validate_file_basic`,
  `_validate_xml_syntax`, `_validate_bas_schema`, `_validate_features`,
  `_validate_ui_elements`, `_validate_actions`, `_validate_data_integrity`,
  `_validate_performance`, `_validate_security` and
  `_calculate_xml_depth`.

Strings are processed at the character-list level with structurally
recursive functions so that every definition evaluates inside the kernel.
Scanning functions that consume more than one character per step take an
explicit fuel argument instantiated with the length of the input; fuel was
chosen so that it never runs out on the wrapped call.  The embedding models
the ASCII fragment of the Python semantics: the Python regular expression
classes `\w`, `\s`, `\d` and `str.lower` also accept further Unicode
characters, which no theorem below exercises.  Validation messages are
modelled as an inductive type carrying the data each Python format string
interpolates; the surrounding Korean text of the messages is not modelled.
Python exceptions are not modelled: none of the embedded code paths can
raise (the try blocks of the validator guard only the file system and the
json module, which the embedding abstracts).
-/

namespace HDG

/-! ## Character helpers (ASCII fragment of the Python character classes) -/

/-- ASCII model of the Python regex class `\w`: letters, digits, underscore. -/
def isWordChar (c : Char) : Bool := c.isAlphanum || c = '_'

/-- ASCII model of the Python regex class `\s`. -/
def isPySpace (c : Char) : Bool :=
  c = ' ' || c = '\t' || c = '\n' || c = '\r' || c = '\x0b' || c = '\x0c'

/-- Characters allowed in the regex class `[^"\s>]` of the quoting pattern. -/
def isValChar (c : Char) : Bool := !(c = '"' || isPySpace c || c = '>')

/-- ASCII model of `str.lower` on one character. -/
def lowerC (c : Char) : Char := if 'A' ≤ c ∧ c ≤ 'Z' then Char.ofNat (c.toNat + 32) else c

/-- ASCII model of `str.lower`. -/
def strLower (s : String) : String := ⟨s.data.map lowerC⟩

/-- Substring test, `pat in s` of Python. -/
def infixOf (pat : List Char) : List Char → Bool
  | [] => pat.isPrefixOf ([] : List Char)
  | c :: cs => pat.isPrefixOf (c :: cs) || infixOf pat cs

/-- String-level substring test, `pat in s` of Python. -/
def containsStr (s pat : String) : Bool := infixOf pat.data s.data

/-- ASCII model of Python `str.strip`. -/
def trimPy (s : String) : String :=
  ⟨((s.data.dropWhile isPySpace).reverse.dropWhile isPySpace).reverse⟩

/-! ## The syntax corrector, `fix_common_errors` of src/modules/mod_xml.py

The Python function applies, in order: the quoting substitution
`re.sub(r'(\w+)=([^"\s>]+)(?=\s|>)', r'\1="\2"', s)`; extraction of every
CDATA section by `re.findall(r'<!\[CDATA\[(.*?)\]\]>', s, re.DOTALL)`;
`str.replace` of each full CDATA section by the token `__CDATA_i__`;
`str.replace` of the five reserved characters by their entities, in the
dictionary order amp, lt, gt, quot, apos; and `str.replace` of each token
back by its full CDATA section. -/

/-- One attempt of the quoting regex at the start of the input.  The Python
pattern matches here exactly when a nonempty maximal `\w` run is directly
followed by an equals sign and a nonempty maximal `[^"\s>]` run whose next
character exists and is whitespace or a greater-than sign; backtracking can
never rescue a failed attempt because every shorter `\w` run is still
followed by a word character and every shorter value run is still followed
by a value character.  Returns the replacement `\1="\2"` and the rest of
the input after the match. -/
def tryQuoteMatch (s : List Char) : Option (List Char × List Char) :=
  if s.takeWhile isWordChar = [] then none else
  match s.dropWhile isWordChar with
  | '=' :: r2 =>
    if r2.takeWhile isValChar = [] then none else
    match r2.dropWhile isValChar with
    | c :: r3 =>
      if isPySpace c || c = '>' then
        some (s.takeWhile isWordChar ++ '=' :: '"' :: (r2.takeWhile isValChar ++ ['"']),
              c :: r3)
      else none
    | [] => none
  | _ => none

/-- The quoting pass of `re.sub`: scan left to right, replace each
non-overlapping match, advance one character where no match starts.
The fuel argument only bounds the recursion; `quoteFix` supplies the
length of the input, which the scan never exhausts because every step
consumes at least one input character. -/
def quoteFixF : Nat → List Char → List Char
  | 0, s => s
  | _ + 1, [] => []
  | fuel + 1, c :: cs =>
    match tryQuoteMatch (c :: cs) with
    | some (rep, rest) => rep ++ quoteFixF fuel rest
    | none => c :: quoteFixF fuel cs

/-- The quoting substitution of line 57 of src/modules/mod_xml.py. -/
def quoteFix (s : List Char) : List Char := quoteFixF s.length s

/-- Python `s.replace("", rep)` inserts the replacement before every
character and at the end; never reached by the corrector, whose patterns
are all nonempty. -/
def emptyRep (rep : List Char) : List Char → List Char
  | [] => rep
  | c :: cs => rep ++ c :: emptyRep rep cs

/-- Python `str.replace` for a nonempty pattern: replace every
non-overlapping occurrence, scanning left to right.  Fuel as in
`quoteFixF`. -/
def replaceAllF (pat rep : List Char) : Nat → List Char → List Char
  | 0, s => s
  | _ + 1, [] => []
  | fuel + 1, c :: cs =>
    if pat.isPrefixOf (c :: cs) then rep ++ replaceAllF pat rep fuel ((c :: cs).drop pat.length)
    else c :: replaceAllF pat rep fuel cs

/-- Python `str.replace`. -/
def replaceAll (s pat rep : List Char) : List Char :=
  if pat = [] then emptyRep rep s else replaceAllF pat rep s.length s

/-- The opening delimiter of a CDATA section. -/
def cdataOpen : List Char := '<' :: '!' :: '[' :: 'C' :: 'D' :: 'A' :: 'T' :: 'A' :: '[' :: []

/-- The closing delimiter of a CDATA section. -/
def cdataClose : List Char := ']' :: ']' :: '>' :: []

/-- Split the input at the first occurrence of the pattern, returning the
text before it and the text after it. -/
def splitFirst (pat : List Char) : List Char → Option (List Char × List Char)
  | [] => if pat.isPrefixOf ([] : List Char) then some ([], []) else none
  | c :: cs =>
    if pat.isPrefixOf (c :: cs) then some ([], (c :: cs).drop pat.length)
    else match splitFirst pat cs with
      | some (pre, post) => some (c :: pre, post)
      | none => none

/-- The non-greedy scan of `re.findall(r'<!\[CDATA\[(.*?)\]\]>', s,
re.DOTALL)`: each payload runs from an opening delimiter to the first
closing delimiter after it, and scanning resumes after that closer.  Fuel
as in `quoteFixF`. -/
def findCdataF : Nat → List Char → List (List Char)
  | 0, _ => []
  | fuel + 1, s =>
    match splitFirst cdataOpen s with
    | none => []
    | some (_, r1) =>
      match splitFirst cdataClose r1 with
      | none => []
      | some (payload, r2) => payload :: findCdataF fuel r2

/-- All CDATA payloads of the input, in order. -/
def findCdata (s : List Char) : List (List Char) := findCdataF s.length s

/-- A full CDATA section with the given payload. -/
def cdataFull (p : List Char) : List Char := cdataOpen ++ p ++ cdataClose

/-- The shielding token `__CDATA_i__` of lines 75 and 83 of
src/modules/mod_xml.py. -/
def placeholder (i : Nat) : List Char := "__CDATA_".data ++ (Nat.repr i).data ++ "__".data

/-- The replacement dictionary of lines 60 to 66 of src/modules/mod_xml.py,
in its insertion order. -/
def escapePairs : List (List Char × List Char) :=
  [(['&'], "&amp;".data), (['<'], "&lt;".data), (['>'], "&gt;".data),
   (['"'], "&quot;".data), (['\''], "&apos;".data)]

/-- The full corrector `fix_common_errors` of src/modules/mod_xml.py,
lines 54 to 85, at the character-list level. -/
def fixCommonErrorsL (s : List Char) : List Char :=
  let s1 := quoteFix s
  let cds := (findCdata s1).enum
  let shielded := cds.foldl (fun t ip => replaceAll t (cdataFull ip.2) (placeholder ip.1)) s1
  let escaped := escapePairs.foldl (fun t pr => replaceAll t pr.1 pr.2) shielded
  cds.foldl (fun t ip => replaceAll t (placeholder ip.1) (cdataFull ip.2)) escaped

/-- The corrector `fix_common_errors` on strings. -/
def fix_common_errors (s : String) : String := ⟨fixCommonErrorsL s.data⟩

/-! ## The document model

`xml.etree.ElementTree` elements as the validator reads them: a tag, an
attribute mapping (modelled as an association list looked up by first
match, as the keys of the Python dict are unique), optional text and a
list of children.  A mutual inductive with its own list type keeps every
traversal structurally recursive, so that all definitions reduce inside
the kernel. -/

mutual
inductive Elem where
  | mk (tag : String) (attrs : List (String × String)) (text : Option String)
       (children : ElemList)
deriving Repr
inductive ElemList where
  | nil
  | cons (head : Elem) (tail : ElemList)
deriving Repr
end

/-- Build an element list from a Lean list. -/
def ElemList.ofList : List Elem → ElemList
  | [] => .nil
  | e :: es => .cons e (ElemList.ofList es)

/-- View an element list as a Lean list. -/
def ElemList.toList : ElemList → List Elem
  | .nil => []
  | .cons e es => e :: es.toList

/-- The tag of an element. -/
def Elem.tag : Elem → String
  | .mk t _ _ _ => t

/-- The attribute list of an element. -/
def Elem.attrs : Elem → List (String × String)
  | .mk _ a _ _ => a

/-- The text of an element, as ElementTree exposes it. -/
def Elem.text : Elem → Option String
  | .mk _ _ x _ => x

/-- The children of an element as a Lean list. -/
def Elem.childrenL : Elem → List Elem
  | .mk _ _ _ cs => cs.toList

/-- Python `elem.get(name)`: the raw attribute lookup. -/
def Elem.get (e : Elem) (a : String) : Option String := e.attrs.lookup a

/-- Truthy attribute access: the validator always tests `elem.get(a)` for
truth, under which a missing attribute and an empty value coincide. -/
def Elem.attrVal (e : Elem) (a : String) : Option String :=
  match e.get a with
  | some s => if s = "" then none else some s
  | none => none

/-- Truthy text access, modelling `if elem.text:`. -/
def Elem.textVal (e : Elem) : Option String :=
  match e.text with
  | some s => if s = "" then none else some s
  | none => none

/-- Python `elem.findall(tag)`: the direct children with the tag, in
order. -/
def Elem.findall (e : Elem) (t : String) : List Elem :=
  e.childrenL.filter (fun c => c.tag == t)

/-- Python `elem.find(tag)`: the first direct child with the tag. -/
def Elem.find (e : Elem) (t : String) : Option Elem :=
  e.childrenL.find? (fun c => c.tag == t)

mutual
/-- Python `elem.iter()`: the element and all its descendants in document
order. -/
def Elem.iterAll : Elem → List Elem
  | .mk t a x cs => .mk t a x cs :: cs.iterAllL
/-- The iteration of `Elem.iterAll` over a list of siblings. -/
def ElemList.iterAllL : ElemList → List Elem
  | .nil => []
  | .cons c cs => c.iterAll ++ cs.iterAllL
end

/-- The proper descendants of an element, in document order. -/
def Elem.descendants : Elem → List Elem
  | .mk _ _ _ cs => cs.iterAllL

/-- Python `elem.findall(".//tag")`: every descendant with the tag, in
document order. -/
def Elem.findallDeep (e : Elem) (t : String) : List Elem :=
  e.descendants.filter (fun c => c.tag == t)

/-- Python `elem.find(".//tag")`: the first descendant with the tag. -/
def Elem.findDeep (e : Elem) (t : String) : Option Elem :=
  e.descendants.find? (fun c => c.tag == t)

mutual
/-- The recursion `_calculate_xml_depth` of src/modules/validator.py,
lines 484 to 494: a leaf returns the current depth, an inner node the
maximum of its children at depth one more, starting from zero. -/
def Elem.depth : Elem → Nat → Nat
  | .mk _ _ _ .nil, cur => cur
  | .mk _ _ _ (.cons c cs), cur => ElemList.depthFold (.cons c cs) (cur + 1) 0
/-- The loop accumulating `max_child_depth` over the children. -/
def ElemList.depthFold : ElemList → Nat → Nat → Nat
  | .nil, _, acc => acc
  | .cons c cs, d, acc => ElemList.depthFold cs d (max acc (c.depth d))
end

/-! ## Validation messages

Each constructor stands for one message format string of
src/modules/validator.py and carries the data that the Python code
interpolates into it; the fixed Korean text around the data is not
modelled. -/

inductive VMsg where
  | fileNotExists
  | fileTooSmall (sizeBytes : Nat)
  | fileTooLarge (sizeBytes : Nat)
  | notXmlSuffix
  | parseError
  | noUtf8Decl
  | badRootTag (tag : String)
  | badNamespace (got : Option String)
  | versionMissing
  | versionBadFormat (v : String)
  | missingRequiredElement (name : String)
  | featureIdMissing (n : Nat)
  | dupFeatureId (id : String)
  | featureAttrMissing (id attr : String)
  | unknownCategory (id cat : String)
  | featureVisibleNotTrue (id v : String)
  | featureCountLow (count : Nat)
  | uiIdMissing (n : Nat)
  | dupUiId (id : String)
  | unknownUiType (id ty : String)
  | uiVisibleNotTrue (id v : String)
  | uiEnabledNotTrue (id v : String)
  | actionIdMissing (n : Nat)
  | dupActionId (id : String)
  | unknownActionType (id ty : String)
  | danglingFeatureRef (fid : String)
  | badJson (tag : String)
  | configBadJson
  | configNotObject
  | tooManyElements (n : Nat)
  | tooDeep (n : Nat)
  | largeTextNode (tag : String)
  | plaintextPassword (tag : String)
  | passwordAttr (name : String)
  | apiKeySuspect (tag : String)
deriving DecidableEq, Repr

/-- The result dictionary each check builds: a valid flag and ordered
error and warning lists.  Every Python check sets `valid = False` exactly
when it appends an error, so the embedding computes the flag as emptiness
of the error list where the stage can fail at all. -/
structure CheckResult where
  valid : Bool
  errors : List VMsg
  warnings : List VMsg
deriving DecidableEq, Repr

/-- The overall result dictionary of `validate_xml_file`: the verdict,
the accumulated error and warning lists, and the per-check summary in
insertion order (the summary stores each full check result, as the Python
dict does). -/
structure Verdict where
  is_valid : Bool
  errors : List VMsg
  warnings : List VMsg
  summary : List (String × CheckResult)
deriving DecidableEq, Repr

/-! ## The rule table `_load_validation_rules` -/

/-- The `required_elements` list: tags required among the direct children
of the root (the list includes the root tag itself, and the code checks it
among the children). -/
def requiredElements : List String :=
  ["BrowserAutomationStudioProject", "Script", "Settings", "Variables", "Features",
   "UserInterface", "Actions", "Macros", "Resources", "Log"]

/-- The `required_attributes` entry for Feature elements. -/
def requiredFeatureAttrs : List String := ["id", "name", "category", "enabled", "visible"]

/-- The expected `xmlns` value. -/
def nsExpected : String := "http://bablosoft.com/BrowserAutomationStudio"

/-- The closed vocabulary `feature_categories`. -/
def featureCategories : List String :=
  ["YouTube_자동화", "프록시_연결관리", "보안_탐지회피",
   "UI_사용자인터페이스", "시스템_관리모니터링", "고급_최적화알고리즘",
   "데이터_처리", "네트워크_통신", "파일_관리", "암호화_보안",
   "스케줄링", "로깅", "에러_처리", "성능_모니터링",
   "자동화_스크립트", "웹_크롤링", "API_연동", "데이터베이스",
   "이메일_자동화", "SMS_연동", "캡차_해결", "이미지_처리",
   "텍스트_분석", "머신러닝", "AI_통합", "추가_기능"]

/-- The closed vocabulary `ui_types`. -/
def uiTypes : List String :=
  ["button", "toggle", "input", "select", "checkbox",
   "radio", "slider", "textarea", "label", "panel"]

/-- The closed vocabulary `action_types`. -/
def actionTypes : List String :=
  ["Navigate", "Click", "Type", "Wait", "Scroll", "Submit",
   "Extract", "Screenshot", "Upload", "Download", "Login",
   "SolveCaptcha", "ProxyRotate", "MonitorSystem"]

/-- The minimal recommended file size: `min_file_size_mb = 500`, in bytes.
The Python float division of the byte count by 1048576 is exact for any
realistic size, so the comparison is carried out on bytes. -/
def minSizeBytes : Nat := 500 * 1048576

/-- The maximal file size: `max_file_size_mb = 2000`, in bytes. -/
def maxSizeBytes : Nat := 2000 * 1048576

/-- The version pattern `^\d+\.\d+\.\d+$` applied through `re.match`:
three nonempty digit runs separated by dots; the dollar anchor of Python
also accepts one trailing newline. -/
def versionParse (l : List Char) : Bool :=
  if l.takeWhile Char.isDigit = [] then false else
  match l.dropWhile Char.isDigit with
  | '.' :: r2 =>
    if r2.takeWhile Char.isDigit = [] then false else
    match r2.dropWhile Char.isDigit with
    | '.' :: r4 =>
      if r4.takeWhile Char.isDigit = [] then false
      else (r4.dropWhile Char.isDigit = [] || r4.dropWhile Char.isDigit = ['\n'])
    | _ => false
  | _ => false

/-- The version check on a string. -/
def versionOk (v : String) : Bool := versionParse v.data

/-! ## The per-category element scans -/

/-- The Feature loop of `_validate_features`, lines 280 to 311 of
src/modules/validator.py, threading the set of seen ids and the running
count.  A missing or empty id yields one error and skips the remaining
checks of that element; a repeated id yields one duplicate error and is
not added again; each empty required attribute yields one error; a
category outside the vocabulary and a visible value other than `true`
(case-insensitively) yield warnings.  Returns the error and warning lists
of the loop. -/
def featureLoop : List String → Nat → List Elem → (List VMsg × List VMsg)
  | _, _, [] => ([], [])
  | ids, count, f :: rest =>
    let n := count + 1
    match f.attrVal "id" with
    | none =>
      let ew := featureLoop ids n rest
      (.featureIdMissing n :: ew.1, ew.2)
    | some i =>
      let dupE : List VMsg := if i ∈ ids then [.dupFeatureId i] else []
      let ids2 := if i ∈ ids then ids else ids ++ [i]
      let attrE : List VMsg := requiredFeatureAttrs.filterMap
        (fun a => if (f.attrVal a).isNone then some (.featureAttrMissing i a) else none)
      let catW : List VMsg := match f.attrVal "category" with
        | some c => if c ∈ featureCategories then [] else [.unknownCategory i c]
        | none => []
      let visW : List VMsg := match f.attrVal "visible" with
        | some v => if strLower v = "true" then [] else [.featureVisibleNotTrue i v]
        | none => []
      let ew := featureLoop ids2 n rest
      (dupE ++ attrE ++ ew.1, catW ++ visW ++ ew.2)

/-- `_validate_features`: the loop over the Feature children, followed by
the count warning against the target 7170. -/
def validate_features (fe : Elem) : CheckResult :=
  let fs := fe.findall "Feature"
  let ew := featureLoop [] 0 fs
  let cw : List VMsg := if fs.length < 7170 then [.featureCountLow fs.length] else []
  ⟨ew.1.isEmpty, ew.1, ew.2 ++ cw⟩

/-- The UIElement loop of `_validate_ui_elements`, lines 327 to 355:
id presence and uniqueness as for features, then warnings for a type
outside the vocabulary and for visible or enabled values other than
`true`; no required-attribute scan is performed for UI elements. -/
def uiLoop : List String → Nat → List Elem → (List VMsg × List VMsg)
  | _, _, [] => ([], [])
  | ids, count, u :: rest =>
    let n := count + 1
    match u.attrVal "id" with
    | none =>
      let ew := uiLoop ids n rest
      (.uiIdMissing n :: ew.1, ew.2)
    | some i =>
      let dupE : List VMsg := if i ∈ ids then [.dupUiId i] else []
      let ids2 := if i ∈ ids then ids else ids ++ [i]
      let tyW : List VMsg := match u.attrVal "type" with
        | some ty => if ty ∈ uiTypes then [] else [.unknownUiType i ty]
        | none => []
      let visW : List VMsg := match u.attrVal "visible" with
        | some v => if strLower v = "true" then [] else [.uiVisibleNotTrue i v]
        | none => []
      let enW : List VMsg := match u.attrVal "enabled" with
        | some v => if strLower v = "true" then [] else [.uiEnabledNotTrue i v]
        | none => []
      let ew := uiLoop ids2 n rest
      (dupE ++ ew.1, tyW ++ visW ++ enW ++ ew.2)

/-- `_validate_ui_elements`. -/
def validate_ui_elements (ue : Elem) : CheckResult :=
  let ew := uiLoop [] 0 (ue.findall "UIElement")
  ⟨ew.1.isEmpty, ew.1, ew.2⟩

/-- The Action loop of `_validate_actions`, lines 366 to 385: id presence
and uniqueness, then a warning for a type outside the vocabulary. -/
def actionLoop : List String → Nat → List Elem → (List VMsg × List VMsg)
  | _, _, [] => ([], [])
  | ids, count, a :: rest =>
    let n := count + 1
    match a.attrVal "id" with
    | none =>
      let ew := actionLoop ids n rest
      (.actionIdMissing n :: ew.1, ew.2)
    | some i =>
      let dupE : List VMsg := if i ∈ ids then [.dupActionId i] else []
      let ids2 := if i ∈ ids then ids else ids ++ [i]
      let tyW : List VMsg := match a.attrVal "type" with
        | some ty => if ty ∈ actionTypes then [] else [.unknownActionType i ty]
        | none => []
      let ew := actionLoop ids2 n rest
      (dupE ++ ew.1, tyW ++ ew.2)

/-- `_validate_actions`. -/
def validate_actions (ae : Elem) : CheckResult :=
  let ew := actionLoop [] 0 (ae.findall "Action")
  ⟨ew.1.isEmpty, ew.1, ew.2⟩

/-- `_validate_bas_schema`, lines 206 to 271: the root-tag check, the
namespace warning, the version check (absent or empty and malformed are
distinct errors), the required-children scan in rule order, and the
merged results of the Feature, UIElement and Action scans when the
respective sections exist.  No stage aborts the later ones.  Errors and
warnings accumulate in the order of the Python appends, and the valid
flag equals emptiness of the errors, as the code sets it to False exactly
at each error. -/
def validate_bas_schema (root : Elem) : CheckResult :=
  let rootE : List VMsg :=
    if root.tag = "BrowserAutomationStudioProject" then [] else [.badRootTag root.tag]
  let nsW : List VMsg :=
    if root.get "xmlns" = some nsExpected then [] else [.badNamespace (root.get "xmlns")]
  let verE : List VMsg := match root.attrVal "version" with
    | none => [.versionMissing]
    | some v => if versionOk v then [] else [.versionBadFormat v]
  let existing := root.childrenL.map Elem.tag
  let reqE : List VMsg := requiredElements.filterMap
    (fun r => if r ∈ existing then none else some (.missingRequiredElement r))
  let fr : CheckResult := match root.find "Features" with
    | some fe => validate_features fe
    | none => ⟨true, [], []⟩
  let ur : CheckResult := match root.find "UserInterface" with
    | some ue => validate_ui_elements ue
    | none => ⟨true, [], []⟩
  let ar : CheckResult := match root.find "Actions" with
    | some ae => validate_actions ae
    | none => ⟨true, [], []⟩
  let errors := rootE ++ verE ++ reqE ++ fr.errors ++ ur.errors ++ ar.errors
  ⟨errors.isEmpty, errors, nsW ++ fr.warnings ++ ur.warnings ++ ar.warnings⟩

/-- First nonblank character is an opening brace: models
`text.strip().startswith` applied to the JSON opener at line 405. -/
def stripStartsBrace (t : String) : Bool :=
  match t.data.dropWhile isPySpace with
  | c :: _ => c = '{'
  | [] => false

/-- `_validate_data_integrity`, lines 389 to 425: dangling feature
references of UI elements, the embedded JSON scan over every text node,
and the Config section check.  The outcome of `json.loads` is abstracted
by the two oracle parameters: `jsonOk t` holds when the Python parse of
`t` succeeds and `jsonObj t` when its result is a dict; no claim depends
on their values.  The check appends warnings only; its error list is
empty and its flag true on every path the embedding covers (the code sets
them only in its exception handler). -/
def validate_data_integrity (jsonOk jsonObj : String → Bool) (root : Elem) : CheckResult :=
  let featureIds := (root.findallDeep "Feature").filterMap (fun f => f.attrVal "id")
  let dangling : List VMsg := (root.findallDeep "UIElement").filterMap
    (fun u => match u.attrVal "feature_id" with
      | some fid => if fid ∈ featureIds then none else some (.danglingFeatureRef fid)
      | none => none)
  let jsonW : List VMsg := root.iterAll.filterMap
    (fun e => match e.textVal with
      | some t => if stripStartsBrace t && !(jsonOk t) then some (.badJson e.tag) else none
      | none => none)
  let configW : List VMsg := match root.findDeep "Config" with
    | some ce => match ce.textVal with
      | some t => if jsonOk t then (if jsonObj t then [] else [.configNotObject]) else [.configBadJson]
      | none => []
    | none => []
  ⟨true, [], dangling ++ jsonW ++ configW⟩

/-- `_validate_performance`, lines 427 to 450: warnings for more than one
million elements, for depth above 20 and for each text node longer than
100000 characters.  Warnings only, by construction. -/
def validate_performance (root : Elem) : CheckResult :=
  let total := root.iterAll.length
  let w1 : List VMsg := if total > 1000000 then [.tooManyElements total] else []
  let d := root.depth 0
  let w2 : List VMsg := if d > 20 then [.tooDeep d] else []
  let w3 : List VMsg := root.iterAll.filterMap
    (fun e => match e.textVal with
      | some t => if t.length > 100000 then some (.largeTextNode e.tag) else none
      | none => none)
  ⟨true, [], w1 ++ w2 ++ w3⟩

/-- Start of the value class `[^"\'\s]+` of the password pattern. -/
def pwdValStart : List Char → Bool
  | [] => false
  | c :: _ => !(c = '"' || c = '\'' || isPySpace c)

/-- The tail `\s*[:=]\s*["\']?([^"\'\s]+)` of the password pattern after
one of the keywords: skip whitespace, require a colon or equals sign,
skip whitespace, optionally consume one quote, then require a value
character (after a consumed quote the fallback of the optional group
cannot succeed, because a quote is never a value character). -/
def pwdTail (r : List Char) : Bool :=
  match r.dropWhile isPySpace with
  | c :: r2 =>
    if c = ':' || c = '=' then
      match r2.dropWhile isPySpace with
      | q :: rest => if q = '"' || q = '\'' then pwdValStart rest else pwdValStart (q :: rest)
      | [] => false
    else false
  | [] => false

/-- One attempt of the password pattern `(password|pwd|pass)` followed by
`pwdTail`, at the start of the lowered input. -/
def pwdAt (l : List Char) : Bool :=
  ("password".data.isPrefixOf l && pwdTail (l.drop 8)) ||
  ("pwd".data.isPrefixOf l && pwdTail (l.drop 3)) ||
  ("pass".data.isPrefixOf l && pwdTail (l.drop 4))

/-- Existence of a match of the password pattern anywhere in the input. -/
def pwdScan : List Char → Bool
  | [] => false
  | c :: cs => pwdAt (c :: cs) || pwdScan cs

/-- Nonemptiness of `re.findall` of the case-insensitive pattern
`(password|pwd|pass)\s*[:=]\s*["\']?([^"\'\s]+)` of line 458. -/
def pwdFound (t : String) : Bool := pwdScan (t.data.map lowerC)

/-- A run of at least 32 ASCII alphanumeric characters exists: the search
of the pattern `[A-Za-z0-9]{32,}` of line 472. -/
def alnumRunGe32 : List Char → Nat → Bool
  | [], _ => false
  | c :: cs, run =>
    if c.isAlphanum then (decide (run + 1 ≥ 32)) || alnumRunGe32 cs (run + 1)
    else alnumRunGe32 cs 0

/-- The API-key heuristic on one text. -/
def apiKeyFound (t : String) : Bool := alnumRunGe32 t.data 0

/-- `_validate_security`, lines 452 to 482: per element, a warning when
its text matches the password pattern and a warning per attribute whose
lowered name contains the word password with a value longer than five
characters; then a second scan warning when a text holds a 32-character
alphanumeric run and the lowered tag contains key, token or secret.
Warnings only, by construction. -/
def validate_security (root : Elem) : CheckResult :=
  let w1 : List VMsg := root.iterAll.flatMap
    (fun e =>
      (match e.textVal with
       | some t => if pwdFound t then [VMsg.plaintextPassword e.tag] else []
       | none => []) ++
      e.attrs.filterMap
        (fun av => if containsStr (strLower av.1) "password" && decide (av.2.length > 5)
                   then some (.passwordAttr av.1) else none))
  let w2 : List VMsg := root.iterAll.filterMap
    (fun e => match e.textVal with
      | some t =>
        if apiKeyFound t &&
           (containsStr (strLower e.tag) "key" || containsStr (strLower e.tag) "token" ||
            containsStr (strLower e.tag) "secret")
        then some (.apiKeySuspect e.tag) else none
      | none => none)
  ⟨true, [], w1 ++ w2⟩

/-! ## The file level -/

/-- What `validate_xml_file` learns about the file before and at parse
time: existence, byte size, whether the suffix lowers to `.xml`, whether
the first line declares utf-8, and the parsed tree when parsing succeeds
(the embedding gives `ET.parse` and the confirming `minidom.parse` of
lines 180 to 194 one shared outcome). -/
structure FileInfo where
  exists_ : Bool
  sizeBytes : Nat
  hasXmlSuffix : Bool
  utf8Declared : Bool
  parsed : Option Elem

/-- `_validate_file_basic`, lines 139 to 172: a missing file is an error;
a size below the minimum is a warning and the scan continues to the
suffix warning; a size above the maximum is an error returned at once,
skipping the suffix check. -/
def validate_file_basic (f : FileInfo) : CheckResult :=
  if f.exists_ = false then ⟨false, [.fileNotExists], []⟩
  else if f.sizeBytes < minSizeBytes then
    ⟨true, [], .fileTooSmall f.sizeBytes :: (if f.hasXmlSuffix then [] else [.notXmlSuffix])⟩
  else if f.sizeBytes > maxSizeBytes then ⟨false, [.fileTooLarge f.sizeBytes], []⟩
  else ⟨true, [], if f.hasXmlSuffix then [] else [.notXmlSuffix]⟩

/-- `validate_xml_file`, lines 72 to 137: the file check, returned alone
on failure; the parse check, returned on failure; then the schema,
integrity, performance and security stages.  Schema and integrity errors
and warnings are merged into the top lists only when the respective check
failed (the code guards both extends by `if not check["valid"]`), the
performance and security warnings always; the verdict is
`len(errors) == 0 and schema.valid and integrity.valid`, and the summary
records every check result that ran, in order. -/
def validate_xml_file (jsonOk jsonObj : String → Bool) (f : FileInfo) : Verdict :=
  let fc := validate_file_basic f
  if fc.valid = false then ⟨false, fc.errors, [], [("file_basic", fc)]⟩
  else
    match f.parsed with
    | none =>
      ⟨false, [.parseError], [],
       [("file_basic", fc), ("xml_syntax", ⟨false, [.parseError], []⟩)]⟩
    | some root =>
      let xs : CheckResult := ⟨true, [], if f.utf8Declared then [] else [.noUtf8Decl]⟩
      let sc := validate_bas_schema root
      let ic := validate_data_integrity jsonOk jsonObj root
      let pc := validate_performance root
      let secc := validate_security root
      let errs := (if sc.valid then [] else sc.errors) ++ (if ic.valid then [] else ic.errors)
      let warns := (if sc.valid then [] else sc.warnings) ++ (if ic.valid then [] else ic.warnings)
        ++ pc.warnings ++ secc.warnings
      ⟨errs.isEmpty && sc.valid && ic.valid, errs, warns,
       [("file_basic", fc), ("xml_syntax", xs), ("bas_schema", sc),
        ("data_integrity", ic), ("performance", pc), ("security", secc)]⟩

/-! ## Concrete document families used by the claims -/

/-- A Feature element with the five required attributes. -/
def feat (i n c en vis : String) : Elem :=
  .mk "Feature" [("id", i), ("name", n), ("category", c), ("enabled", en), ("visible", vis)]
    none .nil

/-- A UIElement with the attributes the UI scan reads. -/
def uiEl (i ty n vis en : String) : Elem :=
  .mk "UIElement" [("id", i), ("type", ty), ("name", n), ("visible", vis), ("enabled", en)]
    none .nil

/-- A document with the expected root tag, namespace, a well-formed
version, every required child present, and the given Feature, UIElement
and Action lists in their sections. -/
def mkDoc (fs uis acts : List Elem) : Elem :=
  .mk "BrowserAutomationStudioProject"
    [("xmlns", nsExpected), ("version", "29.3.1")] none
    (.ofList
      [.mk "BrowserAutomationStudioProject" [] none .nil,
       .mk "Script" [] none .nil, .mk "Settings" [] none .nil, .mk "Variables" [] none .nil,
       .mk "Features" [] none (.ofList fs), .mk "UserInterface" [] none (.ofList uis),
       .mk "Actions" [] none (.ofList acts),
       .mk "Macros" [] none .nil, .mk "Resources" [] none .nil, .mk "Log" [] none .nil])

/-- A file carrying the given tree, with an unobjectionable size, suffix
and declaration, so that only the tree-level checks can find anything. -/
def mkFile (root : Elem) : FileInfo := ⟨true, 600 * 1048576, true, true, some root⟩

/-- The vocabulary-tolerance family: a document whose single Feature
carries the category `c` and whose single UIElement carries the type
`ty`, with every other attribute well formed. -/
def c8doc (i n c en u ty m : String) : Elem :=
  mkDoc [feat i n c en "true"] [uiEl u ty m "true" "true"] []

/-- A constant json oracle for concrete instantiations. -/
def jsonAlways : String → Bool := fun _ => true

/-- The advisory message kinds: the spec classifies vocabulary, bound,
cross-reference, embedded-JSON and security findings, and the remaining
informational notes, as warnings that never affect the verdict.  The two
file-size messages split: a size below the minimum is advisory, a size
above the maximum is a hard error. -/
def isAdvisory : VMsg → Bool
  | .fileTooSmall _ => true
  | .notXmlSuffix => true
  | .noUtf8Decl => true
  | .badNamespace _ => true
  | .unknownCategory _ _ => true
  | .featureVisibleNotTrue _ _ => true
  | .featureCountLow _ => true
  | .unknownUiType _ _ => true
  | .uiVisibleNotTrue _ _ => true
  | .uiEnabledNotTrue _ _ => true
  | .unknownActionType _ _ => true
  | .danglingFeatureRef _ => true
  | .badJson _ => true
  | .configBadJson => true
  | .configNotObject => true
  | .tooManyElements _ => true
  | .tooDeep _ => true
  | .largeTextNode _ => true
  | .plaintextPassword _ => true
  | .passwordAttr _ => true
  | .apiKeySuspect _ => true
  | _ => false

/-- Validity from the hard checks alone, following the words of the spec:
the file checks pass, the document parses, and the schema and integrity
stages pass.  Stated separately from `validate_xml_file` so that the
independence of the verdict from the performance and security stages is a
theorem comparing the two definitions. -/
def hard_checks_valid (jsonOk jsonObj : String → Bool) (f : FileInfo) : Bool :=
  (validate_file_basic f).valid &&
  (match f.parsed with
   | none => false
   | some root =>
     (validate_bas_schema root).valid && (validate_data_integrity jsonOk jsonObj root).valid)

/-! ## Lemmas about the corrector -/

theorem mem_of_dropWhile_eq_cons {p : Char → Bool} {l r : List Char} {c : Char}
    (h : l.dropWhile p = c :: r) : c ∈ l :=
  (List.dropWhile_suffix p).subset (by rw [h]; exact List.mem_cons_self c r)

/-- Without an equals sign the quoting pattern can match nowhere. -/
theorem tryQuoteMatch_eq_none {l : List Char} (h : '=' ∉ l) : tryQuoteMatch l = none := by
  unfold tryQuoteMatch
  split
  · rfl
  · split
    · next r2 heq => exact absurd (mem_of_dropWhile_eq_cons heq) h
    · rfl

/-- The quoting pass leaves an input without equals signs unchanged. -/
theorem quoteFixF_id : ∀ (fuel : Nat) (l : List Char), '=' ∉ l → quoteFixF fuel l = l := by
  intro fuel
  induction fuel with
  | zero => intro l _; rfl
  | succ n ih =>
    intro l h
    cases l with
    | nil => rfl
    | cons c cs =>
      simp only [quoteFixF, tryQuoteMatch_eq_none h]
      exact congrArg (c :: ·) (ih cs (fun hm => h (List.mem_cons_of_mem c hm)))

/-- Python replace leaves an input unchanged when the first character of
the pattern never occurs in it. -/
theorem replaceAllF_id : ∀ (fuel : Nat) (p : Char) (ps rep l : List Char), p ∉ l →
    replaceAllF (p :: ps) rep fuel l = l := by
  intro fuel
  induction fuel with
  | zero => intro p ps rep l _; rfl
  | succ n ih =>
    intro p ps rep l h
    cases l with
    | nil => rfl
    | cons c cs =>
      have hpc : p ≠ c := fun he => h (he ▸ List.mem_cons_self c cs)
      have hpre : (p :: ps).isPrefixOf (c :: cs) = false := by
        show (p == c && ps.isPrefixOf cs) = false
        simp [hpc]
      simp only [replaceAllF, hpre, Bool.false_eq_true, if_false]
      exact congrArg (c :: ·) (ih p ps rep cs (fun hm => h (List.mem_cons_of_mem c hm)))

/-- String-level form of `replaceAllF_id`. -/
theorem replaceAll_id {p : Char} {ps rep l : List Char} (h : p ∉ l) :
    replaceAll l (p :: ps) rep = l := by
  unfold replaceAll
  simp only [reduceCtorEq, if_false]
  exact replaceAllF_id l.length p ps rep l h

/-- The first occurrence search fails when the head of the pattern never
occurs in the input. -/
theorem splitFirst_eq_none : ∀ (p : Char) (ps l : List Char), p ∉ l →
    splitFirst (p :: ps) l = none := by
  intro p ps l
  induction l with
  | nil =>
    intro _
    show (if (p :: ps).isPrefixOf ([] : List Char) then _ else none) = none
    rfl
  | cons c cs ih =>
    intro h
    have hpc : p ≠ c := fun he => h (he ▸ List.mem_cons_self c cs)
    have hpre : (p :: ps).isPrefixOf (c :: cs) = false := by
      show (p == c && ps.isPrefixOf cs) = false
      simp [hpc]
    simp only [splitFirst, hpre, Bool.false_eq_true, if_false,
      ih (fun hm => h (List.mem_cons_of_mem c hm))]

/-- Without an opening angle bracket there is no CDATA section. -/
theorem findCdataF_eq_nil : ∀ (fuel : Nat) (l : List Char), '<' ∉ l →
    findCdataF fuel l = [] := by
  intro fuel l h
  cases fuel with
  | zero => rfl
  | succ n =>
    have : splitFirst cdataOpen l = none := splitFirst_eq_none '<' _ l h
    simp only [findCdataF, this]

/-- The corrector is the identity on text containing none of the five
reserved characters and no equals sign: the quoting pass, the CDATA
machinery and each escaping replace all leave such text unchanged. -/
theorem fix_common_errors_id (s : String)
    (h1 : '&' ∉ s.data) (h2 : '<' ∉ s.data) (h3 : '>' ∉ s.data)
    (h4 : '"' ∉ s.data) (h5 : '\'' ∉ s.data) (h6 : '=' ∉ s.data) :
    fix_common_errors s = s := by
  have hq : quoteFix s.data = s.data := quoteFixF_id s.data.length s.data h6
  unfold fix_common_errors fixCommonErrorsL findCdata
  simp only [hq, findCdataF_eq_nil s.data.length s.data h2, List.enum_nil, List.foldl_nil,
    escapePairs, List.foldl_cons, replaceAll_id h1, replaceAll_id h2, replaceAll_id h3,
    replaceAll_id h4, replaceAll_id h5]


/-- The empty list is a prefix of every list. -/
theorem isPrefixOf_self_append : ∀ (l r : List Char), l.isPrefixOf (l ++ r) = true := by
  intro l r
  induction l with
  | nil => cases r <;> rfl
  | cons c cs ih =>
    show (c == c && cs.isPrefixOf (cs ++ r)) = true
    simp [ih]

/-- Python replace on a text that starts with the pattern, whose head
character does not occur in the remaining tail: the one occurrence is
replaced and the tail passes through. -/
theorem replaceAll_front (pat rep tail : List Char) (c : Char)
    (hhd : pat.head? = some c) (htail : c ∉ tail) :
    replaceAll (pat ++ tail) pat rep = rep ++ tail := by
  cases pat with
  | nil => cases hhd
  | cons c0 cs =>
    have hc0 : c0 = c := by simpa using hhd
    subst hc0
    unfold replaceAll
    rw [if_neg (by simp)]
    have hpre : (c0 :: cs).isPrefixOf (c0 :: (cs ++ tail)) = true :=
      isPrefixOf_self_append (c0 :: cs) tail
    simp only [List.cons_append, List.length_cons]
    simp only [replaceAllF, hpre, eq_self_iff_true, if_true]
    simp only [List.length_cons, List.drop_succ_cons, List.drop_left]
    rw [replaceAllF_id _ c0 cs rep tail htail]

/-- The first-occurrence search on a text that starts with the pattern
splits at the front. -/
theorem splitFirst_front (pat rest : List Char) (c : Char) (hhd : pat.head? = some c) :
    splitFirst pat (pat ++ rest) = some ([], rest) := by
  cases pat with
  | nil => cases hhd
  | cons c0 cs =>
    have hpre : (c0 :: cs).isPrefixOf (c0 :: (cs ++ rest)) = true :=
      isPrefixOf_self_append (c0 :: cs) rest
    show splitFirst (c0 :: cs) (c0 :: (cs ++ rest)) = some ([], rest)
    simp only [splitFirst, hpre, eq_self_iff_true, if_true]
    simp only [List.length_cons, List.drop_succ_cons, List.drop_left]

/-- Scanning for the CDATA closer across a payload free of closing
brackets finds exactly the closer that follows the payload. -/
theorem splitFirst_boundary (p : List Char) (h2 : ']' ∉ p) :
    ∀ t : List Char, splitFirst cdataClose (p ++ (cdataClose ++ t)) = some (p, t) := by
  induction p with
  | nil => intro t; cases t <;> rfl
  | cons c cs ih =>
    intro t
    have hc : c ≠ ']' := fun he => h2 (by rw [he]; exact List.mem_cons_self ']' cs)
    have hpre : cdataClose.isPrefixOf (c :: (cs ++ (cdataClose ++ t))) = false := by
      show ((']' == c) && _) = false
      have hb : (']' == c) = false := by
        simp only [beq_eq_false_iff_ne, ne_eq]
        exact fun h => hc h.symm
      simp [hb]
    show splitFirst cdataClose (c :: (cs ++ (cdataClose ++ t))) = some (c :: cs, t)
    simp only [splitFirst, hpre, Bool.false_eq_true, if_false,
      ih (fun hm => h2 (List.mem_cons_of_mem c hm)) t]

/-- The CDATA scan on one section with a bracket-free payload followed by
reserved text finds exactly that payload. -/
theorem findCdata_frame (p : List Char) (h2 : ']' ∉ p) :
    findCdata (cdataFull p ++ "&>\"'".data) = [p] := by
  have hshape : cdataFull p ++ "&>\"'".data
      = cdataOpen ++ (p ++ (cdataClose ++ "&>\"'".data)) := by
    simp [cdataFull, List.append_assoc]
  have hgen : ∀ fuel : Nat, fuel ≠ 0 →
      findCdataF fuel (cdataOpen ++ (p ++ (cdataClose ++ "&>\"'".data))) = [p] := by
    intro fuel hf
    obtain ⟨m, rfl⟩ := Nat.exists_eq_succ_of_ne_zero hf
    simp only [findCdataF, splitFirst_front cdataOpen _ '<' rfl,
      splitFirst_boundary p h2 ("&>\"'".data),
      findCdataF_eq_nil m ("&>\"'".data) (by decide)]
  unfold findCdata
  rw [hshape]
  exact hgen _ (by simp [cdataOpen])

/-- The whole corrector on one CDATA section with an interference-free
payload followed by reserved text: the payload passes through byte for
byte, the reserved characters outside are escaped. -/
theorem fixCommonErrorsL_frame (p : List Char) (h1 : '=' ∉ p) (h2 : ']' ∉ p) :
    fixCommonErrorsL (cdataFull p ++ "&>\"'".data)
      = cdataFull p ++ "&amp;&gt;&quot;&apos;".data := by
  have hmem : '=' ∉ (cdataFull p ++ "&>\"'".data) := by
    intro hm
    rcases List.mem_append.1 hm with hm1 | hm1
    · unfold cdataFull at hm1
      rcases List.mem_append.1 hm1 with hm2 | hm2
      · rcases List.mem_append.1 hm2 with hm3 | hm3
        · exact absurd hm3 (by decide)
        · exact h1 hm3
      · exact absurd hm2 (by decide)
    · exact absurd hm1 (by decide)
  have hq : quoteFix (cdataFull p ++ "&>\"'".data) = cdataFull p ++ "&>\"'".data :=
    quoteFixF_id _ _ hmem
  have hfc := findCdata_frame p h2
  have henum : List.enum [p] = [(0, p)] := rfl
  have hshield : replaceAll (cdataFull p ++ "&>\"'".data) (cdataFull p) (placeholder 0)
      = placeholder 0 ++ "&>\"'".data :=
    replaceAll_front (cdataFull p) (placeholder 0) ("&>\"'".data) '<' rfl (by decide)
  have hesc : escapePairs.foldl (fun t pr => replaceAll t pr.1 pr.2)
      (placeholder 0 ++ "&>\"'".data) = placeholder 0 ++ "&amp;&gt;&quot;&apos;".data := by
    decide
  have hrest : replaceAll (placeholder 0 ++ "&amp;&gt;&quot;&apos;".data) (placeholder 0)
      (cdataFull p) = cdataFull p ++ "&amp;&gt;&quot;&apos;".data :=
    replaceAll_front (placeholder 0) (cdataFull p) ("&amp;&gt;&quot;&apos;".data) '_' rfl
      (by decide)
  unfold fixCommonErrorsL
  simp only [hq, hfc, henum, List.foldl_cons, List.foldl_nil]
  rw [hshield, hesc, hrest]

/-! ## Claim theorems for the corrector -/

/-- C1, counterexample.  The claim asserts that the payload of a CDATA
section containing reserved characters passes through the corrector byte
for byte (up to boundary whitespace trim) and that the shielding
placeholders never collide with input content.  Both parts fail inside
the claim's scope.  The payload `a=1 &` contains the reserved ampersand,
yet the quoting pass, which runs before CDATA shielding, rewrites it to
`a="1" &`, which no whitespace trim maps back.  And on
`__CDATA_0__<![CDATA[<&>]]>`, whose payload `<&>` consists entirely of
reserved characters, the fixed placeholder token collides with the input
text and restoration duplicates the CDATA section. -/
theorem c1_counterexample_payload_mutated :
    fix_common_errors "<![CDATA[a=1 &]]>" = "<![CDATA[a=\"1\" &]]>" ∧
    findCdata "<![CDATA[a=1 &]]>".data = ["a=1 &".data] ∧
    '&' ∈ "a=1 &".data ∧
    findCdata (fix_common_errors "<![CDATA[a=1 &]]>").data = ["a=\"1\" &".data] ∧
    trimPy "a=\"1\" &" ≠ trimPy "a=1 &" ∧
    fix_common_errors "__CDATA_0__<![CDATA[<&>]]>" = "<![CDATA[<&>]]><![CDATA[<&>]]>" := by
  refine ⟨by decide, by decide, by decide, by decide, by decide, by decide⟩

/-- C1, the amended claim.  The quoting pass runs before CDATA shielding
and the placeholder tokens `__CDATA_i__` are fixed strings that can
collide with input content, so byte-for-byte payload preservation fails
in general (counterexample above).  It holds whenever neither
interference can occur: for every payload containing no equals sign (so
the quoting pass cannot rewrite an attribute-shaped token inside it) and
no closing bracket (so the section delimiters are unambiguous), the
corrector maps the CDATA section around that payload followed by the four
reserved characters `&`, `>`, `"`, `'` to the same section, payload byte
for byte intact, with every reserved character outside escaped to its
entity form. -/
theorem c1_cdata_preservation_conditional (p : String)
    (h1 : '=' ∉ p.data) (h2 : ']' ∉ p.data) :
    fix_common_errors ("<![CDATA[" ++ p ++ "]]>&>\"'")
      = "<![CDATA[" ++ p ++ "]]>&amp;&gt;&quot;&apos;" := by
  have key := fixCommonErrorsL_frame p.data h1 h2
  have e1 : "<![CDATA[".data = cdataOpen := by decide
  have e2 : "]]>&>\"'".data = cdataClose ++ "&>\"'".data := by decide
  have e3 : "]]>&amp;&gt;&quot;&apos;".data = cdataClose ++ "&amp;&gt;&quot;&apos;".data := by
    decide
  have hdata : ("<![CDATA[" ++ p ++ "]]>&>\"'").data
      = cdataFull p.data ++ "&>\"'".data := by
    show ("<![CDATA[".data ++ p.data) ++ "]]>&>\"'".data = _
    rw [e1, e2]
    simp [cdataFull, List.append_assoc]
  have hdata2 : ("<![CDATA[" ++ p ++ "]]>&amp;&gt;&quot;&apos;").data
      = cdataFull p.data ++ "&amp;&gt;&quot;&apos;".data := by
    show ("<![CDATA[".data ++ p.data) ++ "]]>&amp;&gt;&quot;&apos;".data = _
    rw [e1, e3]
    simp [cdataFull, List.append_assoc]
  show String.mk (fixCommonErrorsL ("<![CDATA[" ++ p ++ "]]>&>\"'").data)
      = "<![CDATA[" ++ p ++ "]]>&amp;&gt;&quot;&apos;"
  rw [hdata, key]
  show String.mk (cdataFull p.data ++ "&amp;&gt;&quot;&apos;".data)
      = String.mk ("<![CDATA[" ++ p ++ "]]>&amp;&gt;&quot;&apos;").data
  rw [hdata2]

/-- C1, witness: the amended theorem at a payload consisting entirely of
reserved characters. -/
theorem c1_witness_reserved_payload :
    fix_common_errors ("<![CDATA[" ++ "<&>'\"" ++ "]]>&>\"'")
      = "<![CDATA[" ++ "<&>'\"" ++ "]]>&amp;&gt;&quot;&apos;" :=
  c1_cdata_preservation_conditional "<&>'\"" (by decide) (by decide)

/-- C2, counterexample.  The corrector is not idempotent: escaping
double-applies, so a second run over the output of the first changes it
again (the ampersand of `&amp;` is escaped once more). -/
theorem c2_counterexample_ampersand :
    fix_common_errors "&" = "&amp;" ∧
    fix_common_errors (fix_common_errors "&") = "&amp;amp;" ∧
    fix_common_errors (fix_common_errors "&") ≠ fix_common_errors "&" := by
  refine ⟨by decide, by decide, by decide⟩

/-- C2, the amended claim.  Idempotence fails on any input containing a
reserved character outside CDATA, because the escaping pass re-escapes its
own output; the corrector is idempotent on inputs containing none of the
five reserved characters and no equals sign, on which it is the
identity. -/
theorem c2_idempotent_on_reserved_free_inputs (s : String)
    (h1 : '&' ∉ s.data) (h2 : '<' ∉ s.data) (h3 : '>' ∉ s.data)
    (h4 : '"' ∉ s.data) (h5 : '\'' ∉ s.data) (h6 : '=' ∉ s.data) :
    fix_common_errors s = s ∧
    fix_common_errors (fix_common_errors s) = fix_common_errors s := by
  have h := fix_common_errors_id s h1 h2 h3 h4 h5 h6
  exact ⟨h, by rw [h]; exact h⟩

/-- C2, witness: the amended theorem applied to a concrete reserved-free
input. -/
theorem c2_witness_hello :
    fix_common_errors "hello" = "hello" ∧
    fix_common_errors (fix_common_errors "hello") = fix_common_errors "hello" :=
  c2_idempotent_on_reserved_free_inputs "hello" (by decide) (by decide) (by decide)
    (by decide) (by decide) (by decide)

/-- C3.  The claim (and the scenario of the spec) says the corrected form
of `<x a=1 b=2>` parses and exposes the attributes a and b; the quoting
pass indeed produces `<x a="1" b="2">`, but the escaping pass then
rewrites every markup character outside CDATA, so the final output
contains no markup at all (no opening angle bracket survives), and no
conforming parser can extract any element or attribute from it.  The same
happens to the Feature scenario input, whose quoted value moreover
swallows the closing slash. -/
theorem c3_escaping_destroys_markup :
    quoteFix "<x a=1 b=2>".data = "<x a=\"1\" b=\"2\">".data ∧
    fix_common_errors "<x a=1 b=2>" = "&lt;x a=&quot;1&quot; b=&quot;2&quot;&gt;" ∧
    '<' ∉ (fix_common_errors "<x a=1 b=2>").data ∧
    fix_common_errors "<Feature id=f1 enabled=true/>"
      = "&lt;Feature id=&quot;f1&quot; enabled=&quot;true/&quot;&gt;" := by
  refine ⟨by decide, by decide, by decide, by decide⟩

/-- C9.  The corrector is a total function of the input string (the
embedding is total by construction, as is the Python code, which has no
raise path), and the empty string is returned unchanged: a trivial
success with zero corrections. -/
theorem c9_empty_input_trivial_success : fix_common_errors "" = "" := by decide

/-! ## Lemmas about the validator -/

theorem integrity_valid_true (j1 j2 : String → Bool) (root : Elem) :
    (validate_data_integrity j1 j2 root).valid = true := rfl

theorem integrity_errors_nil (j1 j2 : String → Bool) (root : Elem) :
    (validate_data_integrity j1 j2 root).errors = [] := rfl

theorem performance_errors_nil (root : Elem) : (validate_performance root).errors = [] := rfl

theorem security_errors_nil (root : Elem) : (validate_security root).errors = [] := rfl

theorem schema_valid_eq (root : Elem) :
    (validate_bas_schema root).valid = (validate_bas_schema root).errors.isEmpty := rfl

/-- Every error the Feature loop can emit is a hard kind: a missing id, a
duplicate id or a missing required attribute. -/
theorem featureLoop_errors_hard :
    ∀ (l : List Elem) (ids : List String) (n : Nat) (m : VMsg),
      m ∈ (featureLoop ids n l).1 → isAdvisory m = false := by
  intro l
  induction l with
  | nil => intro ids n m hm; simp [featureLoop] at hm
  | cons f rest ih =>
    intro ids n m hm
    simp only [featureLoop] at hm
    cases hid : f.attrVal "id" with
    | none =>
      simp only [hid] at hm
      rcases List.mem_cons.1 hm with h | h
      · subst h; rfl
      · exact ih ids (n + 1) m h
    | some i =>
      simp only [hid] at hm
      rcases List.mem_append.1 hm with hm1 | hm1
      · rcases List.mem_append.1 hm1 with hm2 | hm2
        · by_cases hdup : i ∈ ids
          · simp only [if_pos hdup] at hm2
            rcases List.mem_singleton.1 hm2 with rfl
            rfl
          · simp only [if_neg hdup] at hm2
            exact absurd hm2 (List.not_mem_nil m)
        · rcases List.mem_filterMap.1 hm2 with ⟨a, _, he⟩
          by_cases hiso : ((f.attrVal a).isNone : Bool)
          · simp only [if_pos hiso, Option.some.injEq] at he
            subst he; rfl
          · simp only [if_neg hiso] at he
            exact absurd he (by simp)
      · by_cases hdup : i ∈ ids
        · simp only [if_pos hdup] at hm1
          exact ih (ids) (n + 1) m hm1
        · simp only [if_neg hdup] at hm1
          exact ih (ids ++ [i]) (n + 1) m hm1

/-- Every error the UIElement loop can emit is a hard kind. -/
theorem uiLoop_errors_hard :
    ∀ (l : List Elem) (ids : List String) (n : Nat) (m : VMsg),
      m ∈ (uiLoop ids n l).1 → isAdvisory m = false := by
  intro l
  induction l with
  | nil => intro ids n m hm; simp [uiLoop] at hm
  | cons u rest ih =>
    intro ids n m hm
    simp only [uiLoop] at hm
    cases hid : u.attrVal "id" with
    | none =>
      simp only [hid] at hm
      rcases List.mem_cons.1 hm with h | h
      · subst h; rfl
      · exact ih ids (n + 1) m h
    | some i =>
      simp only [hid] at hm
      rcases List.mem_append.1 hm with hm1 | hm1
      · by_cases hdup : i ∈ ids
        · simp only [if_pos hdup] at hm1
          rcases List.mem_singleton.1 hm1 with rfl
          rfl
        · simp only [if_neg hdup] at hm1
          exact absurd hm1 (List.not_mem_nil m)
      · by_cases hdup : i ∈ ids
        · simp only [if_pos hdup] at hm1
          exact ih ids (n + 1) m hm1
        · simp only [if_neg hdup] at hm1
          exact ih (ids ++ [i]) (n + 1) m hm1

/-- Every error the Action loop can emit is a hard kind. -/
theorem actionLoop_errors_hard :
    ∀ (l : List Elem) (ids : List String) (n : Nat) (m : VMsg),
      m ∈ (actionLoop ids n l).1 → isAdvisory m = false := by
  intro l
  induction l with
  | nil => intro ids n m hm; simp [actionLoop] at hm
  | cons a rest ih =>
    intro ids n m hm
    simp only [actionLoop] at hm
    cases hid : a.attrVal "id" with
    | none =>
      simp only [hid] at hm
      rcases List.mem_cons.1 hm with h | h
      · subst h; rfl
      · exact ih ids (n + 1) m h
    | some i =>
      simp only [hid] at hm
      rcases List.mem_append.1 hm with hm1 | hm1
      · by_cases hdup : i ∈ ids
        · simp only [if_pos hdup] at hm1
          rcases List.mem_singleton.1 hm1 with rfl
          rfl
        · simp only [if_neg hdup] at hm1
          exact absurd hm1 (List.not_mem_nil m)
      · by_cases hdup : i ∈ ids
        · simp only [if_pos hdup] at hm1
          exact ih ids (n + 1) m hm1
        · simp only [if_neg hdup] at hm1
          exact ih (ids ++ [i]) (n + 1) m hm1

/-- Every error of the schema stage is a hard kind: root tag, version,
missing required child, or one of the loop errors. -/
theorem schema_errors_hard (root : Elem) :
    ∀ m ∈ (validate_bas_schema root).errors, isAdvisory m = false := by
  intro m hm
  unfold validate_bas_schema at hm
  simp only at hm
  rcases List.mem_append.1 hm with hm1 | hm1
  · rcases List.mem_append.1 hm1 with hm2 | hm2
    · rcases List.mem_append.1 hm2 with hm3 | hm3
      · rcases List.mem_append.1 hm3 with hm4 | hm4
        · rcases List.mem_append.1 hm4 with hm5 | hm5
          · by_cases hr : root.tag = "BrowserAutomationStudioProject"
            · simp only [if_pos hr] at hm5
              exact absurd hm5 (List.not_mem_nil m)
            · simp only [if_neg hr] at hm5
              rcases List.mem_singleton.1 hm5 with rfl
              rfl
          · cases hv : root.attrVal "version" with
            | none =>
              simp only [hv] at hm5
              rcases List.mem_singleton.1 hm5 with rfl
              rfl
            | some v =>
              simp only [hv] at hm5
              by_cases hok : versionOk v = true
              · simp only [if_pos hok] at hm5
                exact absurd hm5 (List.not_mem_nil m)
              · simp only [if_neg hok] at hm5
                rcases List.mem_singleton.1 hm5 with rfl
                rfl
        · rcases List.mem_filterMap.1 hm4 with ⟨r, _, he⟩
          by_cases hin : r ∈ root.childrenL.map Elem.tag
          · simp only [if_pos hin] at he
            exact absurd he (by simp)
          · simp only [if_neg hin, Option.some.injEq] at he
            subst he; rfl
      · cases hf : root.find "Features" with
        | none => simp only [hf] at hm3; exact absurd hm3 (List.not_mem_nil m)
        | some fe =>
          simp only [hf] at hm3
          exact featureLoop_errors_hard _ _ _ m hm3
    · cases hu : root.find "UserInterface" with
      | none => simp only [hu] at hm2; exact absurd hm2 (List.not_mem_nil m)
      | some ue =>
        simp only [hu] at hm2
        exact uiLoop_errors_hard _ _ _ m hm2
  · cases ha : root.find "Actions" with
    | none => simp only [ha] at hm1; exact absurd hm1 (List.not_mem_nil m)
    | some ae =>
      simp only [ha] at hm1
      exact actionLoop_errors_hard _ _ _ m hm1

/-- Every error of the file check is a hard kind. -/
theorem file_basic_errors_hard (f : FileInfo) :
    ∀ m ∈ (validate_file_basic f).errors, isAdvisory m = false := by
  intro m hm
  unfold validate_file_basic at hm
  split_ifs at hm <;> simp_all [isAdvisory]

/-- A failed file check has a nonempty error list. -/
theorem file_basic_invalid_errors_ne (f : FileInfo)
    (h : (validate_file_basic f).valid = false) : (validate_file_basic f).errors ≠ [] := by
  unfold validate_file_basic at h ⊢
  split_ifs at h ⊢ <;> simp_all

/-- A failed schema stage has a nonempty error list. -/
theorem schema_invalid_errors_ne (root : Elem)
    (h : (validate_bas_schema root).valid = false) : (validate_bas_schema root).errors ≠ [] := by
  intro he
  rw [schema_valid_eq, he] at h
  simp at h

/-- C4.  The verdict is true exactly when the accumulated error list is
empty; every accumulated error is of a hard kind (vocabulary, bound,
cross-reference, JSON and security findings never enter the error list);
and on a parsed document a true verdict means the schema stage (root tag,
required children, version, required attributes, uniqueness) and the
integrity stage both passed. -/
theorem c4_is_valid_iff_errors_empty_and_hard (jsonOk jsonObj : String → Bool) (f : FileInfo) :
    ((validate_xml_file jsonOk jsonObj f).is_valid = true ↔
      (validate_xml_file jsonOk jsonObj f).errors = []) ∧
    (∀ m ∈ (validate_xml_file jsonOk jsonObj f).errors, isAdvisory m = false) ∧
    (∀ root, f.parsed = some root → (validate_xml_file jsonOk jsonObj f).is_valid = true →
      (validate_bas_schema root).valid = true ∧
      (validate_data_integrity jsonOk jsonObj root).valid = true) := by
  unfold validate_xml_file
  by_cases hfc : (validate_file_basic f).valid = false
  · rw [if_pos hfc]
    refine ⟨⟨fun h => absurd h (by simp), fun h => absurd h (file_basic_invalid_errors_ne f hfc)⟩,
      file_basic_errors_hard f, fun root _ h => absurd h (by simp)⟩
  · rw [if_neg hfc]
    cases hp : f.parsed with
    | none =>
      refine ⟨by simp, ?_, ?_⟩
      · intro m hm
        rcases List.mem_singleton.1 hm with rfl
        rfl
      · intro root hr
        cases hr
    | some root =>
      simp only [integrity_valid_true, integrity_errors_nil, if_true, List.append_nil,
        Bool.and_true]
      by_cases hsc : (validate_bas_schema root).valid = true
      · simp only [hsc, if_true, List.isEmpty_nil, Bool.true_and]
        refine ⟨by simp, by simp, ?_⟩
        intro root2 hr _
        cases hr
        exact ⟨hsc, trivial⟩
      · have hsc2 : (validate_bas_schema root).valid = false := by
          cases h : (validate_bas_schema root).valid
          · rfl
          · exact absurd h hsc
        simp only [hsc2, if_false, Bool.and_false]
        refine ⟨⟨fun h => absurd h (by simp),
          fun h => absurd h (schema_invalid_errors_ne root hsc2)⟩,
          schema_errors_hard root, ?_⟩
        intro root2 hr h
        exact absurd h (by simp)

/-- C10.  The performance and security stages produce no errors and never
fail, for every document; and the verdict of the whole validation equals
validity of the hard checks alone (file, parse, schema, integrity), so the
findings of the two stages can never make it false. -/
theorem c10_perf_security_never_errors (jsonOk jsonObj : String → Bool) (f : FileInfo)
    (root : Elem) :
    (validate_performance root).errors = [] ∧ (validate_performance root).valid = true ∧
    (validate_security root).errors = [] ∧ (validate_security root).valid = true ∧
    (validate_xml_file jsonOk jsonObj f).is_valid = hard_checks_valid jsonOk jsonObj f := by
  refine ⟨rfl, rfl, rfl, rfl, ?_⟩
  unfold validate_xml_file hard_checks_valid
  by_cases hfc : (validate_file_basic f).valid = false
  · rw [if_pos hfc, hfc]
    simp
  · have hfc2 : (validate_file_basic f).valid = true := by
      cases h : (validate_file_basic f).valid
      · exact absurd h hfc
      · rfl
    rw [if_neg hfc, hfc2]
    cases hp : f.parsed with
    | none => simp
    | some root2 =>
      simp only [integrity_valid_true, integrity_errors_nil, if_true, List.append_nil,
        Bool.and_true, Bool.true_and]
      by_cases hsc : (validate_bas_schema root2).valid = true
      · simp [hsc]
      · have hsc2 : (validate_bas_schema root2).valid = false := by
          cases h : (validate_bas_schema root2).valid
          · rfl
          · exact absurd h hsc
        simp [hsc2]

/-- C7.  A file whose byte size exceeds the configured maximum makes the
whole validation return at once: the verdict is false, the error list is
the one size error, no warning is issued, and the summary shows that only
the file check ran (no parse, schema, integrity, performance or security
stage was attempted). -/
theorem c7_oversized_file_aborts_immediately (jsonOk jsonObj : String → Bool) (f : FileInfo)
    (hex : f.exists_ = true) (hsz : maxSizeBytes < f.sizeBytes) :
    validate_xml_file jsonOk jsonObj f =
      ⟨false, [.fileTooLarge f.sizeBytes], [],
       [("file_basic", ⟨false, [.fileTooLarge f.sizeBytes], []⟩)]⟩ := by
  have hfb : validate_file_basic f = ⟨false, [.fileTooLarge f.sizeBytes], []⟩ := by
    unfold validate_file_basic
    have h1 : ¬f.exists_ = false := by rw [hex]; simp
    have h2 : ¬f.sizeBytes < minSizeBytes := by
      have : minSizeBytes < maxSizeBytes := by decide
      omega
    have h3 : f.sizeBytes > maxSizeBytes := hsz
    rw [if_neg h1, if_neg h2, if_pos h3]
  unfold validate_xml_file
  rw [hfb]
  rfl

/-- C7, witness: the theorem applied to a 2200 MiB file. -/
theorem c7_witness_oversized :
    validate_xml_file jsonAlways jsonAlways ⟨true, 2200 * 1048576, true, true, none⟩ =
      ⟨false, [.fileTooLarge (2200 * 1048576)], [],
       [("file_basic", ⟨false, [.fileTooLarge (2200 * 1048576)], []⟩)]⟩ :=
  c7_oversized_file_aborts_immediately jsonAlways jsonAlways
    ⟨true, 2200 * 1048576, true, true, none⟩ rfl (by decide)

/-! ## The family documents through the pipeline -/

/-- The file wrapper passes the file checks. -/
theorem file_basic_mkFile (root : Elem) : validate_file_basic (mkFile root) = ⟨true, [], []⟩ := by
  have h2 : ¬((600 * 1048576 : Nat) < minSizeBytes) := by decide
  have h3 : ¬((600 * 1048576 : Nat) > maxSizeBytes) := by decide
  simp only [validate_file_basic, mkFile, if_neg h2, if_neg h3]
  simp

/-- On a well-sized parsed file the verdict is exactly determined by the
schema stage (the integrity stage never fails in the embedding): the
verdict flag is the schema flag, the top errors and warnings are those of
the schema stage if and only if it failed, the performance and security
warnings are always appended, and the summary lists all six stages. -/
theorem validate_xml_file_mkFile (jsonOk jsonObj : String → Bool) (root : Elem) :
    validate_xml_file jsonOk jsonObj (mkFile root) =
      ⟨(validate_bas_schema root).valid,
       (if (validate_bas_schema root).valid then [] else (validate_bas_schema root).errors),
       (if (validate_bas_schema root).valid then [] else (validate_bas_schema root).warnings)
         ++ (validate_performance root).warnings ++ (validate_security root).warnings,
       [("file_basic", ⟨true, [], []⟩), ("xml_syntax", ⟨true, [], []⟩),
        ("bas_schema", validate_bas_schema root),
        ("data_integrity", validate_data_integrity jsonOk jsonObj root),
        ("performance", validate_performance root),
        ("security", validate_security root)]⟩ := by
  unfold validate_xml_file
  rw [file_basic_mkFile]
  rw [if_neg (by simp)]
  simp only [mkFile, integrity_valid_true, integrity_errors_nil, if_true, List.append_nil,
    Bool.and_true]
  by_cases hsc : (validate_bas_schema root).valid = true
  · simp [hsc]
  · have hsc2 : (validate_bas_schema root).valid = false := by
      cases h : (validate_bas_schema root).valid
      · rfl
      · exact absurd h hsc
    simp [hsc2]

/-- The schema stage of a family document reduces to the three section
scans: the root tag, namespace, version and required children of `mkDoc`
all pass. -/
theorem schema_mkDoc (fs uis acts : List Elem) :
    validate_bas_schema (mkDoc fs uis acts) =
      ⟨((validate_features (.mk "Features" [] none (.ofList fs))).errors
          ++ (validate_ui_elements (.mk "UserInterface" [] none (.ofList uis))).errors
          ++ (validate_actions (.mk "Actions" [] none (.ofList acts))).errors).isEmpty,
       (validate_features (.mk "Features" [] none (.ofList fs))).errors
          ++ (validate_ui_elements (.mk "UserInterface" [] none (.ofList uis))).errors
          ++ (validate_actions (.mk "Actions" [] none (.ofList acts))).errors,
       (validate_features (.mk "Features" [] none (.ofList fs))).warnings
          ++ (validate_ui_elements (.mk "UserInterface" [] none (.ofList uis))).warnings
          ++ (validate_actions (.mk "Actions" [] none (.ofList acts))).warnings⟩ := rfl

/-- Truthy access to the id attribute of a family Feature. -/
theorem feat_attrVal_id (i n c en vis : String) (hi : i ≠ "") :
    (feat i n c en vis).attrVal "id" = some i := by
  show (if i = "" then none else some i) = some i
  exact if_neg hi

/-- Truthy access to the name attribute of a family Feature. -/
theorem feat_attrVal_name (i n c en vis : String) (hn : n ≠ "") :
    (feat i n c en vis).attrVal "name" = some n := by
  show (if n = "" then none else some n) = some n
  exact if_neg hn

/-- Truthy access to the category attribute of a family Feature. -/
theorem feat_attrVal_category (i n c en vis : String) (hc : c ≠ "") :
    (feat i n c en vis).attrVal "category" = some c := by
  show (if c = "" then none else some c) = some c
  exact if_neg hc

/-- Truthy access to the enabled attribute of a family Feature. -/
theorem feat_attrVal_enabled (i n c en vis : String) (hen : en ≠ "") :
    (feat i n c en vis).attrVal "enabled" = some en := by
  show (if en = "" then none else some en) = some en
  exact if_neg hen

/-- Truthy access to the visible attribute of a family Feature. -/
theorem feat_attrVal_visible (i n c en vis : String) (hvis : vis ≠ "") :
    (feat i n c en vis).attrVal "visible" = some vis := by
  show (if vis = "" then none else some vis) = some vis
  exact if_neg hvis

/-- A family Feature with truthy attributes has no missing required
attribute. -/
theorem feat_attrE_nil (i n c en vis : String) (hi : i ≠ "") (hn : n ≠ "") (hc : c ≠ "")
    (hen : en ≠ "") (hvis : vis ≠ "") :
    requiredFeatureAttrs.filterMap
      (fun a => if ((feat i n c en vis).attrVal a).isNone
                then some (VMsg.featureAttrMissing i a) else none) = [] := by
  simp [requiredFeatureAttrs, feat_attrVal_id i n c en vis hi, feat_attrVal_name i n c en vis hn,
    feat_attrVal_category i n c en vis hc, feat_attrVal_enabled i n c en vis hen,
    feat_attrVal_visible i n c en vis hvis]

/-- The Feature loop on two Features sharing one truthy id and otherwise
complete attributes reports exactly the one duplicate error. -/
theorem featureLoop_two_dup (i n c en vis n2 c2 en2 vis2 : String)
    (hi : i ≠ "") (hn : n ≠ "") (hc : c ≠ "") (hen : en ≠ "") (hvis : vis ≠ "")
    (hn2 : n2 ≠ "") (hc2 : c2 ≠ "") (hen2 : en2 ≠ "") (hvis2 : vis2 ≠ "") :
    (featureLoop [] 0 [feat i n c en vis, feat i n2 c2 en2 vis2]).1 = [.dupFeatureId i] := by
  simp only [featureLoop, feat_attrVal_id i n c en vis hi, feat_attrVal_id i n2 c2 en2 vis2 hi,
    feat_attrE_nil i n c en vis hi hn hc hen hvis, feat_attrE_nil i n2 c2 en2 vis2 hi hn2 hc2 hen2 hvis2,
    List.not_mem_nil, if_false, List.nil_append, List.mem_singleton, if_pos rfl]
  simp

/-! ## Claim theorems for the validator families -/

/-- C6.  A document whose Features section holds exactly two Feature
elements sharing one identifying value, each otherwise complete, yields
exactly one duplicate-id error as the whole error list of the verdict,
and the verdict is false. -/
theorem c6_duplicate_feature_id_single_error (jsonOk jsonObj : String → Bool)
    (i n c en vis n2 c2 en2 vis2 : String)
    (hi : i ≠ "") (hn : n ≠ "") (hc : c ≠ "") (hen : en ≠ "") (hvis : vis ≠ "")
    (hn2 : n2 ≠ "") (hc2 : c2 ≠ "") (hen2 : en2 ≠ "") (hvis2 : vis2 ≠ "") :
    (validate_xml_file jsonOk jsonObj
        (mkFile (mkDoc [feat i n c en vis, feat i n2 c2 en2 vis2] [] []))).errors
      = [.dupFeatureId i] ∧
    (validate_xml_file jsonOk jsonObj
        (mkFile (mkDoc [feat i n c en vis, feat i n2 c2 en2 vis2] [] []))).is_valid = false := by
  have hfind : (Elem.mk "Features" [] none
      (.ofList [feat i n c en vis, feat i n2 c2 en2 vis2])).findall "Feature"
      = [feat i n c en vis, feat i n2 c2 en2 vis2] := rfl
  have hfe : (validate_features (.mk "Features" [] none
      (.ofList [feat i n c en vis, feat i n2 c2 en2 vis2]))).errors = [.dupFeatureId i] := by
    show (featureLoop [] 0 ((Elem.mk "Features" [] none
      (.ofList [feat i n c en vis, feat i n2 c2 en2 vis2])).findall "Feature")).1 = _
    rw [hfind]
    exact featureLoop_two_dup i n c en vis n2 c2 en2 vis2 hi hn hc hen hvis hn2 hc2 hen2 hvis2
  have hsch : (validate_bas_schema (mkDoc [feat i n c en vis, feat i n2 c2 en2 vis2] [] [])).errors
      = [.dupFeatureId i] := by
    rw [schema_mkDoc]
    simp only [hfe]
    rfl
  have hval : (validate_bas_schema (mkDoc [feat i n c en vis, feat i n2 c2 en2 vis2] [] [])).valid
      = false := by
    rw [schema_valid_eq, hsch]
    rfl
  rw [validate_xml_file_mkFile]
  rw [hval]
  simp [hsch]

/-- C6, witness: the theorem at concrete attribute values. -/
theorem c6_witness_concrete :
    (validate_xml_file jsonAlways jsonAlways
        (mkFile (mkDoc [feat "dup" "n1" "c1" "true" "true", feat "dup" "n2" "c2" "true" "true"]
          [] []))).errors = [.dupFeatureId "dup"] ∧
    (validate_xml_file jsonAlways jsonAlways
        (mkFile (mkDoc [feat "dup" "n1" "c1" "true" "true", feat "dup" "n2" "c2" "true" "true"]
          [] []))).is_valid = false :=
  c6_duplicate_feature_id_single_error jsonAlways jsonAlways
    "dup" "n1" "c1" "true" "true" "n2" "c2" "true" "true"
    (by decide) (by decide) (by decide) (by decide) (by decide)
    (by decide) (by decide) (by decide) (by decide)

/-- C5, counterexample.  The claim says a root-tag mismatch short-circuits
the remaining structural checks, version check included.  On the document
with root tag Wrong and nothing else, the error list nevertheless carries
the version error and the ten required-children errors next to the
root-tag error: twelve errors, not one. -/
theorem c5_counterexample_version_check_ran :
    VMsg.versionMissing ∈ (validate_xml_file jsonAlways jsonAlways
        (mkFile (.mk "Wrong" [] none .nil))).errors ∧
    VMsg.badRootTag "Wrong" ∈ (validate_xml_file jsonAlways jsonAlways
        (mkFile (.mk "Wrong" [] none .nil))).errors ∧
    (validate_xml_file jsonAlways jsonAlways (mkFile (.mk "Wrong" [] none .nil))).errors.length
      = 12 := by
  refine ⟨by decide, by decide, by decide⟩

/-- C5, the amended claim.  A root-tag mismatch records a hard error but
does not short-circuit anything: the version check and the
required-children scan still run and contribute their errors, the verdict
is false, and the integrity, performance and security stages still run,
as the summary shows. -/
theorem c5_root_mismatch_checks_still_run (jsonOk jsonObj : String → Bool) (t : String)
    (h : t ≠ "BrowserAutomationStudioProject") :
    (validate_xml_file jsonOk jsonObj (mkFile (.mk t [] none .nil))).errors
      = [.badRootTag t, .versionMissing,
         .missingRequiredElement "BrowserAutomationStudioProject",
         .missingRequiredElement "Script", .missingRequiredElement "Settings",
         .missingRequiredElement "Variables", .missingRequiredElement "Features",
         .missingRequiredElement "UserInterface", .missingRequiredElement "Actions",
         .missingRequiredElement "Macros", .missingRequiredElement "Resources",
         .missingRequiredElement "Log"] ∧
    (validate_xml_file jsonOk jsonObj (mkFile (.mk t [] none .nil))).is_valid = false ∧
    (validate_xml_file jsonOk jsonObj (mkFile (.mk t [] none .nil))).summary.map Prod.fst
      = ["file_basic", "xml_syntax", "bas_schema", "data_integrity", "performance",
         "security"] := by
  have hsch : (validate_bas_schema (.mk t [] none .nil)).errors
      = [.badRootTag t, .versionMissing,
         .missingRequiredElement "BrowserAutomationStudioProject",
         .missingRequiredElement "Script", .missingRequiredElement "Settings",
         .missingRequiredElement "Variables", .missingRequiredElement "Features",
         .missingRequiredElement "UserInterface", .missingRequiredElement "Actions",
         .missingRequiredElement "Macros", .missingRequiredElement "Resources",
         .missingRequiredElement "Log"] := by
    unfold validate_bas_schema
    simp only [Elem.tag, if_neg h]
    rfl
  have hval : (validate_bas_schema (.mk t [] none .nil)).valid = false := by
    rw [schema_valid_eq, hsch]
    rfl
  rw [validate_xml_file_mkFile]
  rw [hval]
  simp [hsch]

/-- C5, witness: the amended theorem at the root tag Wrong. -/
theorem c5_witness_wrong_root :
    (validate_xml_file jsonAlways jsonAlways (mkFile (.mk "Wrong" [] none .nil))).errors
      = [.badRootTag "Wrong", .versionMissing,
         .missingRequiredElement "BrowserAutomationStudioProject",
         .missingRequiredElement "Script", .missingRequiredElement "Settings",
         .missingRequiredElement "Variables", .missingRequiredElement "Features",
         .missingRequiredElement "UserInterface", .missingRequiredElement "Actions",
         .missingRequiredElement "Macros", .missingRequiredElement "Resources",
         .missingRequiredElement "Log"] ∧
    (validate_xml_file jsonAlways jsonAlways (mkFile (.mk "Wrong" [] none .nil))).is_valid
      = false ∧
    (validate_xml_file jsonAlways jsonAlways (mkFile (.mk "Wrong" [] none .nil))).summary.map
        Prod.fst
      = ["file_basic", "xml_syntax", "bas_schema", "data_integrity", "performance",
         "security"] :=
  c5_root_mismatch_checks_still_run jsonAlways jsonAlways "Wrong" (by decide)

/-- Lowering the literal true is the identity. -/
theorem strLower_true : strLower "true" = "true" := rfl

/-- Truthy access to the id attribute of a family UIElement. -/
theorem uiEl_attrVal_id (i ty n vis en : String) (hi : i ≠ "") :
    (uiEl i ty n vis en).attrVal "id" = some i := by
  show (if i = "" then none else some i) = some i
  exact if_neg hi

/-- Truthy access to the type attribute of a family UIElement. -/
theorem uiEl_attrVal_type (i ty n vis en : String) (hty : ty ≠ "") :
    (uiEl i ty n vis en).attrVal "type" = some ty := by
  show (if ty = "" then none else some ty) = some ty
  exact if_neg hty

/-- The Feature loop on one complete Feature carrying an unknown category
yields no error and the one vocabulary warning. -/
theorem featureLoop_one_vocab (i n c en : String) (hi : i ≠ "") (hn : n ≠ "") (hc0 : c ≠ "")
    (hen : en ≠ "") (hc : c ∉ featureCategories) :
    featureLoop [] 0 [feat i n c en "true"] = ([], [.unknownCategory i c]) := by
  simp only [featureLoop, feat_attrVal_id i n c en "true" hi,
    feat_attrVal_category i n c en "true" hc0,
    feat_attrVal_visible i n c en "true" (by decide),
    feat_attrE_nil i n c en "true" hi hn hc0 hen (by decide),
    strLower_true, List.not_mem_nil, if_false, if_neg hc]
  simp

/-- The UIElement loop on one complete UIElement carrying an unknown type
yields no error and the one vocabulary warning. -/
theorem uiLoop_one_vocab (u ty m : String) (hu : u ≠ "") (hty0 : ty ≠ "")
    (hty : ty ∉ uiTypes) :
    uiLoop [] 0 [uiEl u ty m "true" "true"] = ([], [.unknownUiType u ty]) := by
  have hv : (uiEl u ty m "true" "true").attrVal "visible" = some "true" := rfl
  have he : (uiEl u ty m "true" "true").attrVal "enabled" = some "true" := rfl
  simp only [uiLoop, uiEl_attrVal_id u ty m "true" "true" hu,
    uiEl_attrVal_type u ty m "true" "true" hty0, hv, he,
    strLower_true, List.not_mem_nil, if_false, if_neg hty]
  simp

/-- The schema stage of the vocabulary family: no error, and exactly the
category warning, the count warning and the type warning, in order. -/
theorem schema_c8doc (i n c en u ty m : String) (hi : i ≠ "") (hn : n ≠ "") (hc0 : c ≠ "")
    (hen : en ≠ "") (hu : u ≠ "") (hty0 : ty ≠ "")
    (hc : c ∉ featureCategories) (hty : ty ∉ uiTypes) :
    validate_bas_schema (c8doc i n c en u ty m)
      = ⟨true, [], [.unknownCategory i c, .featureCountLow 1, .unknownUiType u ty]⟩ := by
  have hfind : (Elem.mk "Features" [] none (.ofList [feat i n c en "true"])).findall "Feature"
      = [feat i n c en "true"] := rfl
  have hufind : (Elem.mk "UserInterface" [] none
      (.ofList [uiEl u ty m "true" "true"])).findall "UIElement" = [uiEl u ty m "true" "true"] := rfl
  have hfe : validate_features (.mk "Features" [] none (.ofList [feat i n c en "true"]))
      = ⟨true, [], [.unknownCategory i c, .featureCountLow 1]⟩ := by
    unfold validate_features
    simp only [hfind, featureLoop_one_vocab i n c en hi hn hc0 hen hc]
    rfl
  have hue : validate_ui_elements (.mk "UserInterface" [] none
      (.ofList [uiEl u ty m "true" "true"])) = ⟨true, [], [.unknownUiType u ty]⟩ := by
    unfold validate_ui_elements
    simp only [hufind, uiLoop_one_vocab u ty m hu hty0 hty]
    rfl
  show validate_bas_schema (mkDoc [feat i n c en "true"] [uiEl u ty m "true" "true"] []) = _
  rw [schema_mkDoc, hfe, hue]
  rfl

/-- C8, the amended claim.  A document whose only defect is a category
outside the closed feature vocabulary and a type outside the UI
vocabulary stays valid, and the check that scanned it records a warning
naming each value; the check result carrying those warnings sits in the
per-check summary of the verdict.  The top-level warning list of the
verdict, however, stays empty, because `validate_xml_file` merges the
warnings of the schema stage only when that stage failed. -/
theorem c8_vocabulary_warning_in_check_result (jsonOk jsonObj : String → Bool)
    (i n c en u ty m : String) (hi : i ≠ "") (hn : n ≠ "") (hc0 : c ≠ "") (hen : en ≠ "")
    (hu : u ≠ "") (hty0 : ty ≠ "") (hc : c ∉ featureCategories) (hty : ty ∉ uiTypes) :
    VMsg.unknownCategory i c ∈ (validate_bas_schema (c8doc i n c en u ty m)).warnings ∧
    VMsg.unknownUiType u ty ∈ (validate_bas_schema (c8doc i n c en u ty m)).warnings ∧
    ("bas_schema", validate_bas_schema (c8doc i n c en u ty m))
      ∈ (validate_xml_file jsonOk jsonObj (mkFile (c8doc i n c en u ty m))).summary ∧
    (validate_xml_file jsonOk jsonObj (mkFile (c8doc i n c en u ty m))).is_valid = true ∧
    (validate_xml_file jsonOk jsonObj (mkFile (c8doc i n c en u ty m))).warnings = [] := by
  have hsch := schema_c8doc i n c en u ty m hi hn hc0 hen hu hty0 hc hty
  have hperf : (validate_performance (c8doc i n c en u ty m)).warnings = [] := rfl
  have hsec : (validate_security (c8doc i n c en u ty m)).warnings = [] := rfl
  refine ⟨by rw [hsch]; simp, by rw [hsch]; simp, ?_, ?_, ?_⟩
  · rw [validate_xml_file_mkFile]
    simp
  · rw [validate_xml_file_mkFile, hsch]
  · rw [validate_xml_file_mkFile, hsch, hperf, hsec]
    rfl

/-- C8, witness: the amended theorem at concrete values. -/
theorem c8_witness_concrete :
    VMsg.unknownCategory "f1" "NoSuchCategory"
      ∈ (validate_bas_schema (c8doc "f1" "nm" "NoSuchCategory" "true" "u1" "notatype" "nm2")).warnings ∧
    VMsg.unknownUiType "u1" "notatype"
      ∈ (validate_bas_schema (c8doc "f1" "nm" "NoSuchCategory" "true" "u1" "notatype" "nm2")).warnings ∧
    ("bas_schema", validate_bas_schema (c8doc "f1" "nm" "NoSuchCategory" "true" "u1" "notatype" "nm2"))
      ∈ (validate_xml_file jsonAlways jsonAlways
          (mkFile (c8doc "f1" "nm" "NoSuchCategory" "true" "u1" "notatype" "nm2"))).summary ∧
    (validate_xml_file jsonAlways jsonAlways
        (mkFile (c8doc "f1" "nm" "NoSuchCategory" "true" "u1" "notatype" "nm2"))).is_valid = true ∧
    (validate_xml_file jsonAlways jsonAlways
        (mkFile (c8doc "f1" "nm" "NoSuchCategory" "true" "u1" "notatype" "nm2"))).warnings = [] :=
  c8_vocabulary_warning_in_check_result jsonAlways jsonAlways
    "f1" "nm" "NoSuchCategory" "true" "u1" "notatype" "nm2"
    (by decide) (by decide) (by decide) (by decide) (by decide) (by decide)
    (by decide) (by decide)

/-- C8, counterexample.  The claim reads the warning as recorded among
the warnings of the verdict: on the concrete vocabulary-defect document
the verdict stays valid but its top-level warning list is empty — the
vocabulary warning naming the value exists only inside the check result
stored in the summary. -/
theorem c8_counterexample_top_warnings_empty :
    (validate_xml_file jsonAlways jsonAlways
        (mkFile (c8doc "f1" "nm" "NoSuchCategory" "true" "u1" "notatype" "nm2"))).warnings = [] ∧
    (validate_xml_file jsonAlways jsonAlways
        (mkFile (c8doc "f1" "nm" "NoSuchCategory" "true" "u1" "notatype" "nm2"))).is_valid = true ∧
    (validate_bas_schema (c8doc "f1" "nm" "NoSuchCategory" "true" "u1" "notatype" "nm2")).warnings
      = [.unknownCategory "f1" "NoSuchCategory", .featureCountLow 1,
         .unknownUiType "u1" "notatype"] := by
  refine ⟨by decide, by decide, by decide⟩

end HDG
